import Mathlib

/-!
Verification development for the LitGB sprite-sheet pipeline.

The Lean definitions below are a shallow embedding of the Python sources:
  algorithms/_spr_png_to_gbstudio_anim_o1.py  (row interleaver, frame/tile
    descriptor generator),
  algorithms/tile_deduplication.py            (tile deduplicator),
  algorithms/spr_rgb_to_3color_layers.py      (color-triplet layer splitter).

Rasters are modelled as a width/height pair with a total pixel function;
reads outside the raster's bounds yield (0,0,0), matching PIL's zero padding
for `crop`.  Machine integers are Nat/Int (Python ints are unbounded, so no
wraparound modelling is needed).  `uuid.uuid4()` draws are modelled by an
explicit supply `gen : Nat -> String` applied at successive indices in the
exact order the Python code calls `uuid.uuid4()`; one run of the program
corresponds to one choice of supply.
-/

namespace LitGB

/-- An RGB pixel, as an (r, g, b) triple of naturals. -/
abbrev Pixel := Nat × Nat × Nat

/-- The sentinel color (0,255,0) used as background / delimiter. -/
def green : Pixel := (0, 255, 0)

/-- A raster image: dimensions plus a pixel function. -/
structure Img where
  width : Nat
  height : Nat
  px : Nat → Nat → Pixel

/-- Read a pixel, with out-of-bounds reads giving (0,0,0) (PIL pads crops
with zeros outside the source image). -/
def Img.get (img : Img) (x y : Nat) : Pixel :=
  if x < img.width ∧ y < img.height then img.px x y else (0, 0, 0)

/-- Embedding of `_is_empty` from `_spr_png_to_gbstudio_anim_o1.py`:
a region is empty when it is degenerate or all its pixels are the sentinel
green.  (The source's `except` branch cannot trigger in this model because
`crop` is total.) -/
def isEmpty (img : Img) (left upper right lower : Nat) : Bool :=
  if right ≤ left || lower ≤ upper then true
  else
    (List.range (right - left)).all fun dx =>
      (List.range (lower - upper)).all fun dy =>
        img.get (left + dx) (upper + dy) == green

/-- Embedding of `interleave` from `_spr_png_to_gbstudio_anim_o1.py`.
Row-bands of height `tile_height * vert_tiles_per_frame` are re-emitted in
the order A0,B0,A1,B1,...; the output buffer is created with
`Image.new('RGB', (width, height))`, so it keeps the input's dimensions and
rows not covered by a pasted band stay (0,0,0).  The source raises
`ValueError` for non-positive `tile_height`/`vert_tiles_per_frame`; the
generator validates positivity before calling, and all theorems below
assume it. -/
def interleave (img : Img) (tileHeight vertTilesPerFrame : Nat) : Img :=
  let rowHeight := tileHeight * vertTilesPerFrame
  if img.height < rowHeight * 2 then img
  else
    let totalRows0 := img.height / rowHeight
    let totalRows := if totalRows0 % 2 ≠ 0 then totalRows0 - 1 else totalRows0
    if totalRows < 2 then img
    else
      let n := totalRows / 2
      { width := img.width, height := img.height,
        px := fun x y =>
          if y < totalRows * rowHeight then
            let band := y / rowHeight
            let inner := y % rowHeight
            let srcBand := if band % 2 = 0 then band / 2 else n + band / 2
            img.get x (srcBand * rowHeight + inner)
          else (0, 0, 0) }

/-! Descriptor data model, mirroring the JSON dictionaries built by
`_spr_png_to_gbstudio_anim_o1.py`.  The shadow fields `originalId`,
`originalSliceX`, `originalSliceY`, `deduplicated` and `references` model
the keys `_original_id`, `_original_sliceX`, `_original_sliceY`,
`_deduplicated` and `_references` that `tile_deduplication.py` adds; an
absent key is `none`/`false`. -/

/-- One tile entry of the descriptor. -/
structure Tile where
  comment : String
  id : String
  x : Int
  y : Nat
  sliceX : Nat
  sliceY : Nat
  palette : Nat
  flipX : Bool
  flipY : Bool
  objPalette : String
  paletteIndex : Nat
  priority : Bool
  originalId : Option String := none
  originalSliceX : Option Nat := none
  originalSliceY : Option Nat := none
  deduplicated : Bool := false
  references : Option String := none
deriving DecidableEq

/-- One frame entry: an id and its tiles. -/
structure Frame where
  id : String
  tiles : List Tile
deriving DecidableEq

/-- One animation entry: an id and its frames. -/
structure Animation where
  id : String
  frames : List Frame
deriving DecidableEq

/-- One state entry of the descriptor. -/
structure SpriteState where
  id : String
  name : String
  animationType : String
  flipLeft : Bool
  animations : List Animation
deriving DecidableEq

/-- The root animation descriptor. -/
structure Descriptor where
  resourceType : String
  id : String
  name : String
  symbol : String
  numFrames : Nat
  filename : String
  checksum : String
  width : Nat
  height : Nat
  states : List SpriteState
  numTiles : Nat
  canvasWidth : Nat
  canvasHeight : Nat
  boundsX : Nat
  boundsY : Nat
  boundsWidth : Nat
  boundsHeight : Nat
  animSpeed : Nat
deriving DecidableEq

/-- Default tile, used only as the `List.getD` fallback in statements. -/
def defaultTile : Tile :=
  { comment := "", id := "", x := 0, y := 0, sliceX := 0, sliceY := 0,
    palette := 0, flipX := false, flipY := false, objPalette := "",
    paletteIndex := 0, priority := false }

/-- Default frame, used only as the `List.getD` fallback in statements. -/
def defaultFrame : Frame := { id := "", tiles := [] }

/-- Default animation, used only as the `List.getD` fallback in statements. -/
def defaultAnimation : Animation := { id := "", frames := [] }

/-- Default state, used only as the `List.getD` fallback in statements. -/
def defaultState : SpriteState :=
  { id := "", name := "", animationType := "", flipLeft := false, animations := [] }

/-! Configuration.  Parameter-string parsing (`argdict` / `auto_cast`) is an
external utility outside the core; the configuration is modelled as the
already-parsed values with the defaults `args.setdefault` installs.
`fname := none` models a parameter string without an `fname` key, in which
case `setdefault` yields the marker value "TBD". -/

/-- Parsed configuration of the generator with its `setdefault` defaults. -/
structure Config where
  fname : Option String := none
  chksum : String := "TBD"
  twidth : Nat := 8
  theight : Nat := 16
  states : List String := ["fixed"]
  htiles : Nat := 1
  vtiles : Nat := 1
  palettes : List Nat := [1]

/-! String helpers.  Python's `'#f' in s`, `s.replace('#f', '')`,
`s.split('\\')` and `s.replace(' ', '_')` are modelled by direct recursion
on the character list (Lean's own `String.splitOn`/`String.replace` do not
reduce inside the kernel). -/

/-- Containment test for the two-character flip modifier `#f`
(Python `'#f' in state_type`). -/
def containsHashF : List Char → Bool
  | '#' :: 'f' :: _ => true
  | _ :: rest => containsHashF rest
  | [] => false

/-- Left-to-right removal of every occurrence of `#f`
(Python `state_type.replace('#f', '')`). -/
def removeHashF : List Char → List Char
  | '#' :: 'f' :: rest => removeHashF rest
  | c :: rest => c :: removeHashF rest
  | [] => []

/-- Split a character list on a separator character, Python `str.split`
style: `splitOnChar sep "a\\b" = ["a", "b"]`, and the empty string gives
`[""]`. -/
def splitOnChar (sep : Char) : List Char → List (List Char)
  | [] => [[]]
  | c :: rest =>
    if c = sep then [] :: splitOnChar sep rest
    else
      match splitOnChar sep rest with
      | [] => [[c]]
      | g :: gs => (c :: g) :: gs

/-- Replace every occurrence of one character by another
(Python `name.replace(' ', '_')` with single-character arguments). -/
def replaceChar (a b : Char) (l : List Char) : List Char :=
  l.map fun c => if c = a then b else c

/-- Embedding of `_get_animation_count`: the state-type to animation-count
table, with `.get(state_type, 1)` defaulting to 1. -/
def getAnimationCount (stateType : String) : Nat :=
  if stateType = "fixed" then 1
  else if stateType = "multi#f" then 3
  else if stateType = "multi" then 4
  else if stateType = "multi_movement#f" then 6
  else if stateType = "multi_movement" then 8
  else 1

/-- Flip flag: `'#f' in state_type`. -/
def hasFlip (s : String) : Bool := containsHashF s.data

/-- Cleaned state type: `state_type.replace('#f', '')`. -/
def stripFlip (s : String) : String := String.mk (removeHashF s.data)

/-- Horizontal placement compensation:
`0 if hor_tiles_per_frame <= 2 else (hor_tiles_per_frame - 2) * -4`. -/
def hCompensation (htiles : Nat) : Int :=
  if htiles ≤ 2 then 0 else ((htiles : Int) - 2) * (-4)

/-- Name derivation from the `fname` parameter:
`fname.split('\\')[-1][:-4] if fname != 'TBD' else 'unnamed_sprite'`,
where an omitted `fname` defaults to "TBD" via `setdefault`. -/
def spriteName (cfg : Config) : String :=
  let fname := cfg.fname.getD "TBD"
  if fname = "TBD" then "unnamed_sprite"
  else
    let lastPart := (splitOnChar '\\' fname.data).getLastD []
    String.mk (lastPart.take (lastPart.length - 4))

/-- Embedding of `_create_base_json_structure`.  The root id is the first
`uuid.uuid4()` draw of the run, supply index 0. -/
def createBaseJsonStructure (gen : Nat → String) (name checksum : String)
    (imgWidth imgHeight htiles vtiles twidth theight : Nat) : Descriptor :=
  { resourceType := "sprite",
    id := gen 0,
    name := name,
    symbol := "sprite_" ++ String.mk (replaceChar ' ' '_' name.data),
    numFrames := 0,
    filename := name ++ ".png",
    checksum := checksum,
    width := imgWidth,
    height := imgHeight,
    states := [],
    numTiles := 0,
    canvasWidth := htiles * twidth,
    canvasHeight := vtiles * theight,
    boundsX := 0,
    boundsY := 0,
    boundsWidth := htiles * twidth,
    boundsHeight := vtiles * theight,
    animSpeed := 15 }

/-- The geometric context of one generator run: the interleaved raster and
the configuration-derived constants that the loops of `process` close
over. -/
structure GenCtx where
  img : Img
  twidth : Nat
  theight : Nat
  htiles : Nat
  vtiles : Nat
  layerCount : Nat
  hComp : Int
  palettes : List Nat
  maxFrames : Nat

/-- Number of `uuid.uuid4()` draws one frame's tile list consumes. -/
def tilesPerFrame (ctx : GenCtx) : Nat := ctx.vtiles * ctx.htiles * ctx.layerCount

/-- One tile as built in the innermost loop of `_create_frame_tiles`;
`idIdx` is the uuid-supply index of this tile's `uuid.uuid4()` draw and
`tileInFrame` the running `tile_in_frame` counter. -/
def mkTile (ctx : GenCtx) (gen : Nat → String)
    (idIdx numTiles stateIdx animIdx frameIdx tileInFrame
     vIdx hIdx layerIdx stateOffset : Nat) : Tile :=
  let hPxIndex := (hIdx + frameIdx * ctx.htiles) * ctx.twidth
  let vPxIndex := (stateOffset + ctx.vtiles * ctx.layerCount * animIdx +
                   ctx.vtiles * layerIdx + vIdx) * ctx.theight
  { comment := "item: " ++ Nat.repr numTiles ++ "   state: " ++ Nat.repr stateIdx ++
      "   anim: " ++ Nat.repr animIdx ++ "   frame: " ++ Nat.repr frameIdx ++
      "   tile " ++ Nat.repr tileInFrame ++ "   layer: " ++ Nat.repr layerIdx,
    id := gen idIdx,
    x := (hIdx * ctx.twidth : Nat) + ctx.hComp,
    y := vIdx * ctx.theight,
    sliceX := hPxIndex,
    sliceY := vPxIndex,
    palette := 0,
    flipX := false,
    flipY := false,
    objPalette := "OBP0",
    paletteIndex := ctx.palettes.getD layerIdx 0,
    priority := false }

/-- Embedding of `_create_frame_tiles`: the nested loops over
(vertical tile, horizontal tile, layer), in that order.  The running
`tile_in_frame` counter of the source equals
`(vIdx * htiles + hIdx) * layerCount + layerIdx`, and the `uuid.uuid4()`
draw of that tile is supply index `ctr + tile_in_frame`. -/
def createFrameTiles (ctx : GenCtx) (gen : Nat → String)
    (ctr frameIdx stateOffset animIdx numTiles stateIdx : Nat) : List Tile :=
  (List.range ctx.vtiles).flatMap fun vIdx =>
    (List.range ctx.htiles).flatMap fun hIdx =>
      (List.range ctx.layerCount).map fun layerIdx =>
        let tIF := (vIdx * ctx.htiles + hIdx) * ctx.layerCount + layerIdx
        mkTile ctx gen (ctr + tIF) numTiles stateIdx animIdx frameIdx tIF
          vIdx hIdx layerIdx stateOffset

/-- The source's per-frame emptiness test: every tile of the candidate
frame maps to an all-sentinel slice rectangle. -/
def frameEmpty (ctx : GenCtx) (tiles : List Tile) : Bool :=
  tiles.all fun t =>
    isEmpty ctx.img t.sliceX t.sliceY (t.sliceX + ctx.twidth) (t.sliceY + ctx.theight)

/-- Result of the frame-scanning loop: the retained frames plus the
threaded uuid counter and the running `numFrames` / `numTiles` counters. -/
structure FramesOut where
  frames : List Frame
  ctr : Nat
  numFrames : Nat
  numTiles : Nat
deriving DecidableEq

/-- Embedding of the `for frame_index in range(max_frames)` loop of
`process`: `numFrames` is incremented for every scanned candidate (before
the emptiness test), a frame id and its tiles' ids are drawn even for the
candidate that stops the scan, and only non-empty frames are appended. -/
def framesLoop (ctx : GenCtx) (gen : Nat → String) (stateOffset stateIdx animIdx : Nat) :
    Nat → Nat → Nat → Nat → Nat → FramesOut
  | _, 0, ctr, nf, nt => ⟨[], ctr, nf, nt⟩
  | frameIdx, r + 1, ctr, nf, nt =>
    let nf' := nf + 1
    let frameId := gen ctr
    let tiles := createFrameTiles ctx gen (ctr + 1) frameIdx stateOffset animIdx nt stateIdx
    let ctr' := ctr + 1 + tilesPerFrame ctx
    if frameEmpty ctx tiles then ⟨[], ctr', nf', nt⟩
    else
      let rest := framesLoop ctx gen stateOffset stateIdx animIdx (frameIdx + 1) r ctr' nf' (nt + tiles.length)
      ⟨⟨frameId, tiles⟩ :: rest.frames, rest.ctr, rest.numFrames, rest.numTiles⟩

/-- Result of the animation loop. -/
structure AnimsOut where
  anims : List Animation
  ctr : Nat
  numFrames : Nat
  numTiles : Nat
deriving DecidableEq

/-- Embedding of the `for animation_index in range(anim_count)` loop. -/
def animsLoop (ctx : GenCtx) (gen : Nat → String) (stateOffset stateIdx : Nat) :
    Nat → Nat → Nat → Nat → Nat → AnimsOut
  | _, 0, ctr, nf, nt => ⟨[], ctr, nf, nt⟩
  | animIdx, r + 1, ctr, nf, nt =>
    let animId := gen ctr
    let fo := framesLoop ctx gen stateOffset stateIdx animIdx 0 ctx.maxFrames (ctr + 1) nf nt
    let rest := animsLoop ctx gen stateOffset stateIdx (animIdx + 1) r fo.ctr fo.numFrames fo.numTiles
    ⟨⟨animId, fo.frames⟩ :: rest.anims, rest.ctr, rest.numFrames, rest.numTiles⟩

/-- Result of the state loop. -/
structure StatesOut where
  states : List SpriteState
  ctr : Nat
  numFrames : Nat
  numTiles : Nat
deriving DecidableEq

/-- Embedding of the `for state_index, state_type in enumerate(state_types)`
loop: animation count and flip flag from the raw specifier, the cleaned
type on the state record, and the state offset advanced by
`vert_tiles_per_frame * layer_count * anim_count` after each state. -/
def statesLoop (ctx : GenCtx) (gen : Nat → String) :
    List String → Nat → Nat → Nat → Nat → Nat → StatesOut
  | [], _, _, ctr, nf, nt => ⟨[], ctr, nf, nt⟩
  | spec :: rest, stateIdx, stateOffset, ctr, nf, nt =>
    let animCount := getAnimationCount spec
    let stateId := gen ctr
    let ao := animsLoop ctx gen stateOffset stateIdx 0 animCount (ctr + 1) nf nt
    let so := statesLoop ctx gen rest (stateIdx + 1)
        (stateOffset + ctx.vtiles * ctx.layerCount * animCount) ao.ctr ao.numFrames ao.numTiles
    ⟨⟨stateId, "state_" ++ Nat.repr stateIdx, stripFlip spec, hasFlip spec, ao.anims⟩ :: so.states,
      so.ctr, so.numFrames, so.numTiles⟩

/-- Build the generator context from a raster and configuration: the raster
is interleaved, `layer_count = len(layer_palettes)`, and
`max_frames = img_width // (hor_tiles_per_frame * tile_width)` uses the
width captured before interleaving (interleaving preserves dimensions). -/
def mkCtx (img : Img) (cfg : Config) : GenCtx :=
  { img := interleave img cfg.theight cfg.vtiles,
    twidth := cfg.twidth,
    theight := cfg.theight,
    htiles := cfg.htiles,
    vtiles := cfg.vtiles,
    layerCount := cfg.palettes.length,
    hComp := hCompensation cfg.htiles,
    palettes := cfg.palettes,
    maxFrames := img.width / (cfg.htiles * cfg.twidth) }

/-- The happy path of `process` in `_spr_png_to_gbstudio_anim_o1.py`:
interleave, build the base structure (uuid draw 0), run the state loop
(uuid draws from index 1 on), and return the interleaved raster paired
with the populated descriptor. -/
def processOk (gen : Nat → String) (img : Img) (cfg : Config) : Img × Descriptor :=
  let ctx := mkCtx img cfg
  let base := createBaseJsonStructure gen (spriteName cfg) cfg.chksum
      img.width img.height cfg.htiles cfg.vtiles cfg.twidth cfg.theight
  let so := statesLoop ctx gen cfg.states 0 0 1 0 0
  (ctx.img, { base with numFrames := so.numFrames, numTiles := so.numTiles, states := so.states })

/-- Embedding of `process` including its validation, in source order:
non-positive tile dimensions, non-positive tiles-per-frame, empty palette
list, and `max_frames <= 0` each raise `ValueError`. -/
def process (gen : Nat → String) (img : Img) (cfg : Config) :
    Except String (Img × Descriptor) :=
  if cfg.twidth = 0 || cfg.theight = 0 then
    .error "Tile dimensions must be positive"
  else if cfg.htiles = 0 || cfg.vtiles = 0 then
    .error "Tiles per frame must be positive"
  else if cfg.palettes.isEmpty then
    .error "At least one layer palette must be specified"
  else if img.width / (cfg.htiles * cfg.twidth) = 0 then
    .error "Image width is too small for the specified tile configuration"
  else
    .ok (processOk gen img cfg)

/-- Total number of frames actually retained (appended) in a descriptor. -/
def retainedFrames (d : Descriptor) : Nat :=
  (d.states.map fun s => (s.animations.map fun a => a.frames.length).sum).sum

/-- Total number of tiles sitting in retained frames of a descriptor. -/
def retainedTiles (d : Descriptor) : Nat :=
  (d.states.map fun s =>
    (s.animations.map fun a => (a.frames.map fun f => f.tiles.length).sum).sum).sum

/-! Tile deduplicator, embedding `tile_deduplication.py`.  The source keys
its first-occurrence dictionary by the md5 of the slice's raw pixel bytes;
the embedding uses the pixel list itself as the content key (the digest is
only a stand-in for the content).  Tile dimensions are the hardcoded 8x16
of the source, and `image.crop` pads out-of-bounds reads with (0,0,0), so
the source's per-tile `except` branch is unreachable. -/

/-- The pixel content of a tile's 8x16 slice rectangle, row-major like
`Image.tobytes()`. -/
def tileContent (img : Img) (sliceX sliceY : Nat) : List Pixel :=
  (List.range 16).flatMap fun dy =>
    (List.range 8).map fun dx => img.get (sliceX + dx) (sliceY + dy)

/-- First-occurrence record stored in the `tile_hashes` dictionary. -/
structure FirstOcc where
  id : String
  sliceX : Nat
  sliceY : Nat
deriving DecidableEq

/-- The state threaded through the deduplication walk: the
content-to-first-occurrence map, the visit and duplicate counters, and the
`tile_replacements` id map. -/
structure DedupSt where
  tileHashes : List (List Pixel × FirstOcc)
  totalTiles : Nat
  duplicateTiles : Nat
  replacements : List (String × String)
deriving DecidableEq

/-- Lookup in the content map (Python dict membership on the hash key). -/
def lookupHash (m : List (List Pixel × FirstOcc)) (c : List Pixel) : Option FirstOcc :=
  match m with
  | [] => none
  | (k, v) :: rest => if k = c then some v else lookupHash rest c

/-- Embedding of `_replace_tile_with_reference`: preserve the tile's
identity and slice under shadow fields, then overwrite id/sliceX/sliceY
with the first occurrence's values and mark it as a reference. -/
def replaceTileWithReference (dup : Tile) (fo : FirstOcc) : Tile :=
  { dup with
    originalId := some dup.id,
    originalSliceX := some dup.sliceX,
    originalSliceY := some dup.sliceY,
    id := fo.id,
    sliceX := fo.sliceX,
    sliceY := fo.sliceY,
    deduplicated := true,
    references := some fo.id }

/-- Visit one tile: count it, hash its slice content, and either record a
first occurrence or rewrite a duplicate in place. -/
def dedupTile (img : Img) (st : DedupSt) (t : Tile) : Tile × DedupSt :=
  let st1 : DedupSt := { st with totalTiles := st.totalTiles + 1 }
  let c := tileContent img t.sliceX t.sliceY
  match lookupHash st1.tileHashes c with
  | some fo =>
    (replaceTileWithReference t fo,
     { st1 with duplicateTiles := st1.duplicateTiles + 1,
                replacements := (t.id, fo.id) :: st1.replacements })
  | none =>
    (t, { st1 with tileHashes := st1.tileHashes ++ [(c, ⟨t.id, t.sliceX, t.sliceY⟩)] })

/-- Walk a tile list in order, threading the dedup state. -/
def dedupTiles (img : Img) (st : DedupSt) : List Tile → List Tile × DedupSt
  | [] => ([], st)
  | t :: ts =>
    let p := dedupTile img st t
    let q := dedupTiles img p.2 ts
    (p.1 :: q.1, q.2)

/-- Walk the frames of one animation. -/
def dedupFrames (img : Img) (st : DedupSt) : List Frame → List Frame × DedupSt
  | [] => ([], st)
  | f :: fs =>
    let p := dedupTiles img st f.tiles
    let q := dedupFrames img p.2 fs
    ({ f with tiles := p.1 } :: q.1, q.2)

/-- Walk the animations of one state. -/
def dedupAnims (img : Img) (st : DedupSt) : List Animation → List Animation × DedupSt
  | [] => ([], st)
  | a :: as_ =>
    let p := dedupFrames img st a.frames
    let q := dedupAnims img p.2 as_
    ({ a with frames := p.1 } :: q.1, q.2)

/-- Walk all states in document order. -/
def dedupStates (img : Img) (st : DedupSt) : List SpriteState → List SpriteState × DedupSt
  | [] => ([], st)
  | s :: ss =>
    let p := dedupAnims img st s.animations
    let q := dedupStates img p.2 ss
    ({ s with animations := p.1 } :: q.1, q.2)

/-- The statistics dictionary the pass stores under `deduplication`. -/
structure DedupStats where
  total_tiles : Nat
  unique_tiles : Nat
  duplicate_tiles : Nat
  memory_saved : Nat
  tile_replacements : List (String × String)
deriving DecidableEq

/-- Embedding of `process` in `tile_deduplication.py`: walk every tile in
(state, animation, frame, tile) document order and emit the rewritten
descriptor together with the aggregate statistics. -/
def dedupProcess (img : Img) (d : Descriptor) : Descriptor × DedupStats :=
  let p := dedupStates img ⟨[], 0, 0, []⟩ d.states
  ({ d with states := p.1 },
   { total_tiles := p.2.totalTiles,
     unique_tiles := p.2.tileHashes.length,
     duplicate_tiles := p.2.duplicateTiles,
     memory_saved := p.2.duplicateTiles,
     tile_replacements := p.2.replacements })

/-- All tiles of a descriptor in document order. -/
def tilesInOrder (d : Descriptor) : List Tile :=
  d.states.flatMap fun s => s.animations.flatMap fun a => a.frames.flatMap fun f => f.tiles

/-! Color-triplet layer splitter, embedding `spr_rgb_to_3color_layers.py`. -/

/-- A color triplet read from the first raster row. -/
abbrev Triplet := Pixel × Pixel × Pixel

/-- The scan loop of `_extract_color_triplets`, with the structural fuel
bounding the iteration count: the source's `while idx + 3 < width` loop
advances `idx` by at least 1 per iteration, so `width` iterations always
suffice and the fuel never runs out while the guard holds. -/
def extractLoop (img : Img) : Nat → Nat → List Triplet
  | 0, _ => []
  | fuel + 1, idx =>
    if idx + 3 < img.width then
      let c1 := img.get idx 0
      let c2 := img.get (idx + 1) 0
      let c3 := img.get (idx + 2) 0
      let breakPixel := img.get (idx + 3) 0
      if c1 = green then []
      else if breakPixel = green then (c1, c2, c3) :: extractLoop img fuel (idx + 4)
      else extractLoop img fuel (idx + 1)
    else []

/-- Embedding of `_extract_color_triplets`: scan the first row left to
right for 3-pixel triplets each followed by the green sentinel. -/
def extractColorTriplets (img : Img) : List Triplet := extractLoop img img.width 0

/-- Remap one body pixel through a triplet: the three triplet colors map to
the fixed canonical colors, anything else keeps the green fill of the
freshly created output buffer (the source's `continue`). -/
def mapTripletPixel (t : Triplet) (p : Pixel) : Pixel :=
  if p = t.1 then (224, 248, 207)
  else if p = t.2.1 then (134, 192, 108)
  else if p = t.2.2 then (7, 24, 33)
  else green

/-- Embedding of `_create_stacked_bands`: one band of height `remHeight`
per triplet, stacked vertically, each body pixel (rows 8 onward of the
source) remapped through its band's triplet. -/
def createStackedBands (img : Img) (triplets : List Triplet) (width remHeight : Nat) : Img :=
  { width := width,
    height := remHeight * triplets.length,
    px := fun x y =>
      let i := y / remHeight
      let row := y % remHeight
      mapTripletPixel (triplets.getD i ((0,0,0), (0,0,0), (0,0,0))) (img.get x (row + 8)) }

/-- Embedding of `process` in `spr_rgb_to_3color_layers.py`, with its three
validation errors in source order. -/
def splitterProcess (img : Img) : Except String Img :=
  if img.width < 4 then
    .error "Image width must be at least 4 pixels to contain color triplets"
  else
    let triplets := extractColorTriplets img
    if triplets = [] then
      .error "No valid color triplets found in the first row"
    else
      let remHeight := img.height - 8
      if remHeight = 0 then
        .error "Image height is too small to discard 8 rows and proceed."
      else
        .ok (createStackedBands img triplets img.width remHeight)

/-- Whether an `Except` result is an error. -/
def isError (e : Except String Img) : Bool :=
  match e with
  | .error _ => true
  | .ok _ => false

/-! Concrete rasters, configurations and uuid supplies used by witnesses
and counterexamples. -/

/-- A deterministic uuid supply standing for one run's `uuid.uuid4()`
draws. -/
def genA : Nat → String := fun n => String.mk (List.replicate n 'a')

/-- A second, everywhere-different uuid supply standing for another run's
draws. -/
def genB : Nat → String := fun n => String.mk (List.replicate (n + 1) 'b')

/-- An 8x16 raster that is entirely sentinel green. -/
def imgGreen : Img := ⟨8, 16, fun _ _ => (0, 255, 0)⟩

/-- A 1x1 all-red raster. -/
def imgRed : Img := ⟨1, 1, fun _ _ => (255, 0, 0)⟩

/-- A 1x4 raster whose rows are pairwise distinct. -/
def imgRows4 : Img := ⟨1, 4, fun _ y => (y, 0, 0)⟩

/-- A 1x5 raster with no black pixel (row y holds (y+1,0,0)). -/
def imgTall : Img := ⟨1, 5, fun _ y => (y + 1, 0, 0)⟩

/-- The configuration with every `setdefault` default. -/
def cfgDefault : Config := {}

/-- A minimal valid configuration with 1x1 tiles. -/
def cfgUnit : Config :=
  { twidth := 1, theight := 1, htiles := 1, vtiles := 1,
    states := ["fixed"], palettes := [1] }

/-! Claim C9: error conditions of the Color-Triplet Layer Splitter. -/

/-- Claim C9 — confirmed.  The Color-Triplet Layer Splitter fails (with a
descriptive validation error) if and only if the raster's width is below 4,
or the first-row scan finds zero triplets, or the body height
(height minus 8) is not positive; on any other input it returns a result
without raising. -/
theorem C9_splitter_error_iff (img : Img) :
    isError (splitterProcess img) = true ↔
      (img.width < 4 ∨ extractColorTriplets img = [] ∨ img.height ≤ 8) := by
  simp only [splitterProcess]
  split_ifs with h1 h2 h3 <;>
    simp_all [isError, Nat.sub_eq_zero_iff_le]

/-! Claims C7 and C8: the Row Interleaver. -/

/-- Shared lemma: with fewer than 2 complete row-bands the interleaver
returns its input raster itself. -/
theorem interleave_small (img : Img) (th vt : Nat)
    (h : img.height / (th * vt) < 2) : interleave img th vt = img := by
  simp only [interleave]
  split_ifs <;> first | rfl | omega

/-- Shared lemma: the main branch of the interleaver, for an even number
`N ≥ 2` of complete row-bands, produces the record whose pixel function
re-reads the source band `band/2` (even output bands) or `N/2 + band/2`
(odd output bands), with rows at or beyond `N` bands left (0,0,0). -/
theorem interleave_eq (img : Img) (th vt N : Nat) (hth : 0 < th) (hvt : 0 < vt)
    (hN : N = img.height / (th * vt)) (hNe : N % 2 = 0) (hN2 : 2 ≤ N) :
    interleave img th vt =
      { width := img.width, height := img.height,
        px := fun x y =>
          if y < N * (th * vt) then
            img.get x ((if y / (th * vt) % 2 = 0 then y / (th * vt) / 2
                        else N / 2 + y / (th * vt) / 2) * (th * vt) + y % (th * vt))
          else (0, 0, 0) } := by
  have hpos : 0 < th * vt := Nat.mul_pos hth hvt
  have hle : 2 * (th * vt) ≤ img.height := by
    rw [hN] at hN2
    exact (Nat.le_div_iff_mul_le hpos).mp hN2
  have htr : (if N % 2 ≠ 0 then N - 1 else N) = N := by simp [hNe]
  simp only [interleave, ← hN, htr]
  rw [if_neg (by omega), if_neg (by omega)]

/-- Claim C8 — confirmed.  For an even count `N ≥ 2` of complete row-bands
(band height `th*vt`), output band `2k` is pixel-identical to input band
`k` and output band `2k+1` to input band `N/2 + k`; and with fewer than 2
complete bands the interleaver returns a pixel-identical copy of its
input. -/
theorem C8_interleave_bands (th vt : Nat) (hth : 0 < th) (hvt : 0 < vt) :
    (∀ (img : Img) (N : Nat), N = img.height / (th * vt) → N % 2 = 0 → 2 ≤ N →
      ∀ k, k < N / 2 → ∀ dy, dy < th * vt → ∀ x,
        (interleave img th vt).get x (2 * k * (th * vt) + dy) =
          img.get x (k * (th * vt) + dy) ∧
        (interleave img th vt).get x ((2 * k + 1) * (th * vt) + dy) =
          img.get x ((N / 2 + k) * (th * vt) + dy)) ∧
    (∀ img : Img, img.height / (th * vt) < 2 →
      (interleave img th vt).width = img.width ∧
      (interleave img th vt).height = img.height ∧
      ∀ x y, (interleave img th vt).get x y = img.get x y) := by
  have hpos : 0 < th * vt := Nat.mul_pos hth hvt
  constructor
  · intro img N hN hNe hN2 k hk dy hdy x
    have hNle : N * (th * vt) ≤ img.height := by
      rw [hN]
      exact Nat.div_mul_le_self _ _
    have hband : ∀ b, b < N →
        (interleave img th vt).get x (b * (th * vt) + dy) =
          img.get x ((if b % 2 = 0 then b / 2 else N / 2 + b / 2) * (th * vt) + dy) := by
      intro b hb
      have hy : b * (th * vt) + dy < N * (th * vt) := by
        calc b * (th * vt) + dy < b * (th * vt) + (th * vt) := by omega
        _ = (b + 1) * (th * vt) := by ring
        _ ≤ N * (th * vt) := Nat.mul_le_mul_right _ (by omega)
      have hdiv : (b * (th * vt) + dy) / (th * vt) = b := by
        rw [Nat.mul_comm b, Nat.mul_add_div hpos, Nat.div_eq_of_lt hdy, Nat.add_zero]
      have hmod : (b * (th * vt) + dy) % (th * vt) = dy := by
        rw [Nat.mul_comm b, Nat.mul_add_mod, Nat.mod_eq_of_lt hdy]
      rw [interleave_eq img th vt N hth hvt hN hNe hN2]
      simp only [Img.get, hdiv, hmod]
      rw [if_pos hy]
      by_cases hx : x < img.width
      · simp [hx, Nat.lt_of_lt_of_le hy hNle, Img.get]
      · simp [hx, Img.get]
    constructor
    · have h1 := hband (2 * k) (by omega)
      rw [show (2 * k) % 2 = 0 by omega, show (2 * k) / 2 = k by omega] at h1
      simpa using h1
    · have h2 := hband (2 * k + 1) (by omega)
      rw [if_neg (show ¬((2 * k + 1) % 2 = 0) by omega),
        show (2 * k + 1) / 2 = k by omega] at h2
      simpa using h2
  · intro img h
    rw [interleave_small img th vt h]
    exact ⟨rfl, rfl, fun _ _ => rfl⟩

/-- Witness for C8 at a concrete raster: a 1x2 raster with two 1-pixel
bands, band mapping checked at k = 0, and the small-raster branch checked
on a 1x1 raster. -/
theorem C8_witness :
    (interleave imgRows4 1 2).get 0 0 = imgRows4.get 0 0 ∧
    (interleave imgRed 1 2).get 0 0 = imgRed.get 0 0 :=
  ⟨((C8_interleave_bands 1 2 (by decide) (by decide)).1 imgRows4 2 (by decide)
      (by decide) (by decide) 0 (by decide) 0 (by decide) 0).1,
   ((C8_interleave_bands 1 2 (by decide) (by decide)).2 imgRed (by decide)).2.2 0 0⟩

/-- Counterexample for C7 as stated: a 1x5 raster with band height 2 has
two complete bands; the claim says the output ends at the last re-emitted
band (height 4), but the output keeps the full input height 5, and the row
below the last band is the (0,0,0) fill rather than absent. -/
theorem C7_counterexample :
    (interleave imgTall 2 1).height = 5 ∧ ¬ (interleave imgTall 2 1).height = 2 * 2 ∧
    (interleave imgTall 2 1).px 0 4 = (0, 0, 0) := by
  refine ⟨by decide, by decide, by decide⟩

/-- Claim C7 — corrected.  For a raster with at least 2 complete row-bands
the output keeps the input's dimensions; every output band below the last
included (even-count) band index holds the (0,0,0) buffer fill, so no
input pixel below the last included band is re-emitted — but the output
does not end at the last band. -/
theorem C7_amended (img : Img) (th vt : Nat) (hth : 0 < th) (hvt : 0 < vt)
    (h2 : 2 * (th * vt) ≤ img.height) :
    (interleave img th vt).width = img.width ∧
    (interleave img th vt).height = img.height ∧
    ∀ y, (if img.height / (th * vt) % 2 ≠ 0 then img.height / (th * vt) - 1
          else img.height / (th * vt)) * (th * vt) ≤ y →
      ∀ x, (interleave img th vt).px x y = (0, 0, 0) := by
  have hpos : 0 < th * vt := Nat.mul_pos hth hvt
  have hT0 : 2 ≤ img.height / (th * vt) := (Nat.le_div_iff_mul_le hpos).mpr h2
  have hT : 2 ≤ (if img.height / (th * vt) % 2 ≠ 0 then img.height / (th * vt) - 1
                 else img.height / (th * vt)) := by
    split_ifs <;> omega
  simp only [interleave]
  rw [if_neg (by omega), if_neg (by omega)]
  refine ⟨rfl, rfl, ?_⟩
  intro y hy x
  simp only []
  rw [if_neg (by omega)]

/-- Witness for C7 at the concrete 1x5 raster with band height 2. -/
theorem C7_witness :
    (interleave imgTall 2 1).width = 1 ∧ (interleave imgTall 2 1).height = 5 ∧
    (interleave imgTall 2 1).px 0 4 = (0, 0, 0) := by
  have h := C7_amended imgTall 2 1 (by decide) (by decide) (by decide)
  exact ⟨h.1, h.2.1, h.2.2 4 (by decide) 0⟩

/-! Claim C2: the raster returned by the generator. -/

/-- Shared lemma: a successful `process` run returns exactly the happy-path
result. -/
theorem process_ok_inv (gen : Nat → String) (img : Img) (cfg : Config)
    (out : Img × Descriptor) (hok : process gen img cfg = Except.ok out) :
    out = processOk gen img cfg := by
  simp only [process] at hok
  split_ifs at hok <;> simp_all

/-- Counterexample for C2 as stated: on a 1x4 raster with distinct rows and
1x1 tiles the generator succeeds, yet the returned raster differs from the
input at (0,1) — interleaving moved row 2 there. -/
theorem C2_counterexample :
    process genA imgRows4 cfgUnit = Except.ok (processOk genA imgRows4 cfgUnit) ∧
    (processOk genA imgRows4 cfgUnit).1.get 0 1 ≠ imgRows4.get 0 1 :=
  ⟨rfl, by decide⟩

/-- Claim C2 — corrected.  The raster returned by the generator is the
input raster after the Row Interleaver pass (its pixels can differ from the
input's); it is pixel-identical to the input whenever fewer than 2 complete
row-bands exist, where the interleaver returns the input unchanged. -/
theorem C2_amended (gen : Nat → String) (img : Img) (cfg : Config)
    (out : Img × Descriptor) (hok : process gen img cfg = Except.ok out) :
    out.1 = interleave img cfg.theight cfg.vtiles ∧
    (img.height / (cfg.theight * cfg.vtiles) < 2 → out.1 = img) := by
  rw [process_ok_inv gen img cfg out hok]
  exact ⟨rfl, fun h => interleave_small img cfg.theight cfg.vtiles h⟩

/-- Witness for C2 on concrete inputs: the returned raster equals the
interleaved input, and on a 1x1 raster (a single band) it equals the input
itself. -/
theorem C2_witness :
    (processOk genA imgRows4 cfgUnit).1 = interleave imgRows4 1 1 ∧
    (processOk genA imgRed cfgUnit).1 = imgRed :=
  ⟨(C2_amended genA imgRows4 cfgUnit (processOk genA imgRows4 cfgUnit) rfl).1,
   (C2_amended genA imgRed cfgUnit (processOk genA imgRed cfgUnit) rfl).2 (by decide)⟩

/-! Structural lemmas about the generator loops. -/

/-- Flattening two nested index ranges into one, recovering the pair by
division and remainder. -/
theorem flatten_ranges {α : Type} (a b : Nat) (g : Nat → Nat → α) :
    (List.range a).flatMap (fun i => (List.range b).map fun j => g i j) =
    (List.range (a * b)).map fun k => g (k / b) (k % b) := by
  induction a with
  | zero => simp
  | succ n ih =>
    rw [List.range_succ, List.flatMap_append, ih, Nat.succ_mul, List.range_add,
      List.map_append]
    simp only [List.flatMap_cons, List.flatMap_nil, List.append_nil, List.map_map]
    congr 1
    apply List.map_congr_left
    intro k hk
    have hkb : k < b := List.mem_range.mp hk
    have hb : 0 < b := Nat.lt_of_le_of_lt (Nat.zero_le k) hkb
    simp only [Function.comp]
    rw [Nat.mul_comm n b, Nat.mul_add_div hb, Nat.mul_add_mod,
      Nat.div_eq_of_lt hkb, Nat.mod_eq_of_lt hkb, Nat.add_zero]

/-- Indexing a mapped range with `getD`. -/
theorem getD_map_range {α : Type} (n : Nat) (f : Nat → α) (i : Nat) (d : α)
    (hi : i < n) : ((List.range n).map f).getD i d = f i := by
  rw [List.getD_eq_getElem _ _ (by simpa using hi)]
  simp

/-- The tile list of one frame, flattened to a single index running over
`tile_in_frame = 0 .. vtiles*htiles*layerCount - 1`. -/
theorem createFrameTiles_eq (ctx : GenCtx) (gen : Nat → String)
    (ctr frameIdx stateOffset animIdx numTiles stateIdx : Nat) :
    createFrameTiles ctx gen ctr frameIdx stateOffset animIdx numTiles stateIdx =
    (List.range (ctx.vtiles * (ctx.htiles * ctx.layerCount))).map fun k =>
      mkTile ctx gen
        (ctr + ((k / (ctx.htiles * ctx.layerCount) * ctx.htiles +
                 k % (ctx.htiles * ctx.layerCount) / ctx.layerCount) * ctx.layerCount +
                k % (ctx.htiles * ctx.layerCount) % ctx.layerCount))
        numTiles stateIdx animIdx frameIdx
        ((k / (ctx.htiles * ctx.layerCount) * ctx.htiles +
          k % (ctx.htiles * ctx.layerCount) / ctx.layerCount) * ctx.layerCount +
         k % (ctx.htiles * ctx.layerCount) % ctx.layerCount)
        (k / (ctx.htiles * ctx.layerCount))
        (k % (ctx.htiles * ctx.layerCount) / ctx.layerCount)
        (k % (ctx.htiles * ctx.layerCount) % ctx.layerCount) stateOffset := by
  unfold createFrameTiles
  rw [show (fun vIdx => (List.range ctx.htiles).flatMap fun hIdx =>
        (List.range ctx.layerCount).map fun layerIdx =>
          mkTile ctx gen (ctr + ((vIdx * ctx.htiles + hIdx) * ctx.layerCount + layerIdx))
            numTiles stateIdx animIdx frameIdx
            ((vIdx * ctx.htiles + hIdx) * ctx.layerCount + layerIdx)
            vIdx hIdx layerIdx stateOffset) =
      (fun vIdx => (List.range (ctx.htiles * ctx.layerCount)).map fun m =>
          mkTile ctx gen
            (ctr + ((vIdx * ctx.htiles + m / ctx.layerCount) * ctx.layerCount + m % ctx.layerCount))
            numTiles stateIdx animIdx frameIdx
            ((vIdx * ctx.htiles + m / ctx.layerCount) * ctx.layerCount + m % ctx.layerCount)
            vIdx (m / ctx.layerCount) (m % ctx.layerCount) stateOffset)
    from funext fun vIdx => flatten_ranges ctx.htiles ctx.layerCount _]
  exact flatten_ranges ctx.vtiles (ctx.htiles * ctx.layerCount) _

/-- The tile built at indices (v, h, l) of a frame: `tile_in_frame` equals
`(v*htiles + h)*layerCount + l` and its uuid draw is `ctr` plus that. -/
theorem createFrameTiles_getD (ctx : GenCtx) (gen : Nat → String)
    (ctr frameIdx stateOffset animIdx numTiles stateIdx : Nat) (v h l : Nat)
    (hv : v < ctx.vtiles) (hh : h < ctx.htiles) (hl : l < ctx.layerCount) :
    (createFrameTiles ctx gen ctr frameIdx stateOffset animIdx numTiles stateIdx).getD
      ((v * ctx.htiles + h) * ctx.layerCount + l) defaultTile =
    mkTile ctx gen (ctr + ((v * ctx.htiles + h) * ctx.layerCount + l))
      numTiles stateIdx animIdx frameIdx
      ((v * ctx.htiles + h) * ctx.layerCount + l) v h l stateOffset := by
  have hL : 0 < ctx.layerCount := Nat.lt_of_le_of_lt (Nat.zero_le l) hl
  have hH : 0 < ctx.htiles := Nat.lt_of_le_of_lt (Nat.zero_le h) hh
  have hHL : 0 < ctx.htiles * ctx.layerCount := Nat.mul_pos hH hL
  have hsplit : (v * ctx.htiles + h) * ctx.layerCount + l =
      v * (ctx.htiles * ctx.layerCount) + (h * ctx.layerCount + l) := by ring
  have hin : h * ctx.layerCount + l < ctx.htiles * ctx.layerCount := by
    calc h * ctx.layerCount + l < h * ctx.layerCount + ctx.layerCount := by omega
    _ = (h + 1) * ctx.layerCount := by ring
    _ ≤ ctx.htiles * ctx.layerCount := Nat.mul_le_mul_right _ (by omega)
  have hdiv : ((v * ctx.htiles + h) * ctx.layerCount + l) / (ctx.htiles * ctx.layerCount) = v := by
    rw [hsplit, Nat.mul_comm v, Nat.mul_add_div hHL, Nat.div_eq_of_lt hin, Nat.add_zero]
  have hmod : ((v * ctx.htiles + h) * ctx.layerCount + l) % (ctx.htiles * ctx.layerCount) =
      h * ctx.layerCount + l := by
    rw [hsplit, Nat.mul_comm v, Nat.mul_add_mod, Nat.mod_eq_of_lt hin]
  have hdiv2 : (h * ctx.layerCount + l) / ctx.layerCount = h := by
    rw [Nat.mul_comm h, Nat.mul_add_div hL, Nat.div_eq_of_lt hl, Nat.add_zero]
  have hmod2 : (h * ctx.layerCount + l) % ctx.layerCount = l := by
    rw [Nat.mul_comm h, Nat.mul_add_mod, Nat.mod_eq_of_lt hl]
  have hbound : (v * ctx.htiles + h) * ctx.layerCount + l <
      ctx.vtiles * (ctx.htiles * ctx.layerCount) := by
    calc (v * ctx.htiles + h) * ctx.layerCount + l
        = v * (ctx.htiles * ctx.layerCount) + (h * ctx.layerCount + l) := hsplit
    _ < v * (ctx.htiles * ctx.layerCount) + ctx.htiles * ctx.layerCount := by omega
    _ = (v + 1) * (ctx.htiles * ctx.layerCount) := by ring
    _ ≤ ctx.vtiles * (ctx.htiles * ctx.layerCount) := Nat.mul_le_mul_right _ (by omega)
  rw [createFrameTiles_eq, getD_map_range _ _ _ _ hbound, hdiv, hmod, hdiv2, hmod2]

/-- Length of the tile list of one frame. -/
theorem createFrameTiles_length (ctx : GenCtx) (gen : Nat → String)
    (ctr frameIdx stateOffset animIdx numTiles stateIdx : Nat) :
    (createFrameTiles ctx gen ctr frameIdx stateOffset animIdx numTiles stateIdx).length =
      ctx.vtiles * (ctx.htiles * ctx.layerCount) := by
  rw [createFrameTiles_eq]
  simp

/-- Every retained frame of the scan starting at `frameIdx` sits at offset
`k` with frame index `frameIdx + k`, and its tiles are exactly one
`createFrameTiles` call (for some uuid counter and tile counter). -/
theorem framesLoop_getD (ctx : GenCtx) (gen : Nat → String)
    (stateOffset stateIdx animIdx : Nat) :
    ∀ (r frameIdx ctr nf nt k : Nat),
      k < (framesLoop ctx gen stateOffset stateIdx animIdx frameIdx r ctr nf nt).frames.length →
      ∃ c n, (framesLoop ctx gen stateOffset stateIdx animIdx frameIdx r ctr nf nt).frames.getD
          k defaultFrame =
        ⟨gen c, createFrameTiles ctx gen (c + 1) (frameIdx + k) stateOffset animIdx n stateIdx⟩ := by
  intro r
  induction r with
  | zero =>
    intro frameIdx ctr nf nt k hk
    simp [framesLoop] at hk
  | succ r ih =>
    intro frameIdx ctr nf nt k hk
    simp only [framesLoop] at hk ⊢
    by_cases he : frameEmpty ctx
        (createFrameTiles ctx gen (ctr + 1) frameIdx stateOffset animIdx nt stateIdx)
    · rw [if_pos he] at hk
      simp at hk
    · rw [if_neg he] at hk ⊢
      match k with
      | 0 =>
        refine ⟨ctr, nt, ?_⟩
        simp [Nat.add_zero]
      | k' + 1 =>
        simp only [List.length_cons, Nat.add_lt_add_iff_right] at hk
        obtain ⟨c, n, hc⟩ := ih (frameIdx + 1) _ _ _ k' hk
        refine ⟨c, n, ?_⟩
        simpa [Nat.add_assoc, Nat.add_comm 1 k'] using hc

/-- The animation loop appends exactly `r` animations. -/
theorem animsLoop_length (ctx : GenCtx) (gen : Nat → String)
    (stateOffset stateIdx : Nat) :
    ∀ (r animIdx ctr nf nt : Nat),
      (animsLoop ctx gen stateOffset stateIdx animIdx r ctr nf nt).anims.length = r := by
  intro r
  induction r with
  | zero => intro animIdx ctr nf nt; simp [animsLoop]
  | succ r ih =>
    intro animIdx ctr nf nt
    simp only [animsLoop, List.length_cons]
    rw [ih]

/-- The `i`-th animation of the loop starting at `animIdx` has animation
index `animIdx + i` and frames from one frame scan over
`0 .. maxFrames-1`. -/
theorem animsLoop_getD (ctx : GenCtx) (gen : Nat → String)
    (stateOffset stateIdx : Nat) :
    ∀ (r animIdx ctr nf nt i : Nat), i < r →
      ∃ c n m, (animsLoop ctx gen stateOffset stateIdx animIdx r ctr nf nt).anims.getD
          i defaultAnimation =
        ⟨gen c, (framesLoop ctx gen stateOffset stateIdx (animIdx + i) 0 ctx.maxFrames
          (c + 1) n m).frames⟩ := by
  intro r
  induction r with
  | zero => intro animIdx ctr nf nt i hi; omega
  | succ r ih =>
    intro animIdx ctr nf nt i hi
    match i with
    | 0 =>
      refine ⟨ctr, nf, nt, ?_⟩
      simp [animsLoop]
    | i' + 1 =>
      obtain ⟨c, n, m, hc⟩ := ih (animIdx + 1) _ _ _ i' (by omega)
      refine ⟨c, n, m, ?_⟩
      simpa [animsLoop, Nat.add_assoc, Nat.add_comm 1 i'] using hc

/-- The per-state vertical window of the raster reservation. -/
def stateWindow (ctx : GenCtx) (spec : String) : Nat :=
  ctx.vtiles * ctx.layerCount * getAnimationCount spec

/-- The running state offset before state `i`: the sum of the windows of
all earlier states. -/
def stateOffsetSum (ctx : GenCtx) (specs : List String) (i : Nat) : Nat :=
  ((specs.take i).map fun s => stateWindow ctx s).sum

/-- The state loop appends one state per specifier. -/
theorem statesLoop_length (ctx : GenCtx) (gen : Nat → String) :
    ∀ (specs : List String) (stateIdx stateOffset ctr nf nt : Nat),
      (statesLoop ctx gen specs stateIdx stateOffset ctr nf nt).states.length =
        specs.length := by
  intro specs
  induction specs with
  | nil => intro stateIdx stateOffset ctr nf nt; simp [statesLoop]
  | cons spec rest ih =>
    intro stateIdx stateOffset ctr nf nt
    simp only [statesLoop, List.length_cons]
    rw [ih]

/-- The `i`-th state built by the state loop: name, cleaned type and flip
flag from the `i`-th specifier, animations from one animation loop running
`getAnimationCount` times at the accumulated state offset. -/
theorem statesLoop_getD (ctx : GenCtx) (gen : Nat → String) :
    ∀ (specs : List String) (stateIdx stateOffset ctr nf nt i : Nat),
      i < specs.length →
      ∃ c n m, (statesLoop ctx gen specs stateIdx stateOffset ctr nf nt).states.getD
          i defaultState =
        ⟨gen c, "state_" ++ Nat.repr (stateIdx + i), stripFlip (specs.getD i ""),
         hasFlip (specs.getD i ""),
         (animsLoop ctx gen (stateOffset + stateOffsetSum ctx specs i) (stateIdx + i) 0
           (getAnimationCount (specs.getD i "")) (c + 1) n m).anims⟩ := by
  intro specs
  induction specs with
  | nil => intro stateIdx stateOffset ctr nf nt i hi; simp at hi
  | cons spec rest ih =>
    intro stateIdx stateOffset ctr nf nt i hi
    match i with
    | 0 =>
      refine ⟨ctr, nf, nt, ?_⟩
      simp [statesLoop, stateOffsetSum]
    | i' + 1 =>
      obtain ⟨c, n, m, hc⟩ := ih (stateIdx + 1)
        (stateOffset + ctx.vtiles * ctx.layerCount * getAnimationCount spec) _ _ _ i'
        (by simpa using hi)
      refine ⟨c, n, m, ?_⟩
      have hsum : stateOffset + ctx.vtiles * ctx.layerCount * getAnimationCount spec +
          stateOffsetSum ctx rest i' =
          stateOffset + stateOffsetSum ctx (spec :: rest) (i' + 1) := by
        simp only [stateOffsetSum, List.take_succ_cons, List.map_cons, List.sum_cons,
          stateWindow]
        omega
      simpa [statesLoop, Nat.add_assoc, Nat.add_comm 1 i', hsum] using hc

/-! Claim C6: animation counts and the flip flag per state specifier. -/

/-- Claim C6 — confirmed.  The number of animations appended to a state is
determined solely by its specifier — fixed:1, multi#f:3, multi:4,
multi_movement#f:6, multi_movement:8, anything else:1 — and the state's
flipLeft flag is true exactly when the `#f` flip modifier occurs in the
specifier. -/
theorem C6_animation_counts (gen : Nat → String) (img : Img) (cfg : Config)
    (out : Img × Descriptor) (hok : process gen img cfg = Except.ok out)
    (i : Nat) (hi : i < cfg.states.length) :
    (out.2.states.getD i defaultState).animations.length =
      (if cfg.states.getD i "" = "fixed" then 1
       else if cfg.states.getD i "" = "multi#f" then 3
       else if cfg.states.getD i "" = "multi" then 4
       else if cfg.states.getD i "" = "multi_movement#f" then 6
       else if cfg.states.getD i "" = "multi_movement" then 8 else 1) ∧
    (out.2.states.getD i defaultState).flipLeft =
      containsHashF (cfg.states.getD i "").data := by
  rw [process_ok_inv gen img cfg out hok]
  obtain ⟨c, n, m, hc⟩ := statesLoop_getD (mkCtx img cfg) gen cfg.states 0 0 1 0 0 i hi
  simp only [processOk]
  rw [hc]
  constructor
  · rw [show (⟨gen c, "state_" ++ Nat.repr (0 + i), stripFlip (cfg.states.getD i ""),
        hasFlip (cfg.states.getD i ""),
        (animsLoop (mkCtx img cfg) gen (0 + stateOffsetSum (mkCtx img cfg) cfg.states i)
          (0 + i) 0 (getAnimationCount (cfg.states.getD i "")) (c + 1) n m).anims⟩ :
        SpriteState).animations =
      (animsLoop (mkCtx img cfg) gen (0 + stateOffsetSum (mkCtx img cfg) cfg.states i)
        (0 + i) 0 (getAnimationCount (cfg.states.getD i "")) (c + 1) n m).anims from rfl]
    rw [animsLoop_length]
    rfl
  · rfl

/-- Witness for C6: a "multi" state yields 4 animations with flipLeft
false. -/
theorem C6_witness :
    ((processOk genA imgRed
        { cfgUnit with states := ["multi"] }).2.states.getD 0 defaultState).animations.length =
      (if ("multi" : String) = "fixed" then 1
       else if ("multi" : String) = "multi#f" then 3
       else if ("multi" : String) = "multi" then 4
       else if ("multi" : String) = "multi_movement#f" then 6
       else if ("multi" : String) = "multi_movement" then 8 else 1) ∧
    ((processOk genA imgRed
        { cfgUnit with states := ["multi"] }).2.states.getD 0 defaultState).flipLeft =
      containsHashF ("multi" : String).data :=
  C6_animation_counts genA imgRed { cfgUnit with states := ["multi"] }
    (processOk genA imgRed { cfgUnit with states := ["multi"] }) rfl 0 (by decide)

/-! Claim C4: tile geometry and palette assignment. -/

/-- The tile sitting at indices (state, animation, frame, vertical tile,
horizontal tile, layer) in a descriptor, with the source's in-frame tile
ordering. -/
def tileAt (d : Descriptor) (cfg : Config) (si ai k v h l : Nat) : Tile :=
  ((((d.states.getD si defaultState).animations.getD ai
      defaultAnimation).frames.getD k defaultFrame).tiles.getD
    ((v * cfg.htiles + h) * cfg.palettes.length + l) defaultTile)

/-- Counterexample for C4 as stated: on a 1x1 red raster with palette list
[1], the generated tile's `palette` field is 0, not the 0th entry of the
palette list (which is 1); the palette-list entry goes to `paletteIndex`
instead. -/
theorem C4_counterexample :
    process genA imgRed cfgUnit = Except.ok (processOk genA imgRed cfgUnit) ∧
    (tileAt (processOk genA imgRed cfgUnit).2 cfgUnit 0 0 0 0 0 0).palette ≠
      cfgUnit.palettes.getD 0 0 :=
  ⟨rfl, by decide⟩

/-- Claim C4 — corrected (palette): every retained tile at indices
(si, ai, k, v, h, l) has slice X `(h + k*htiles)*tileWidth`, slice Y
`(stateOffset + vtiles*layerCount*ai + vtiles*l + v)*tileHeight` (with the
running state offset the sum of earlier states' windows), placement x
`h*tileWidth + compensation` with compensation 0 for `htiles ≤ 2` and
`(htiles-2)*(-4)` otherwise, placement y `v*tileHeight`, and — correcting
the claim — the layer's palette-list entry is stored in the tile's
`paletteIndex` field, while the `palette` field is 0. -/
theorem C4_amended (gen : Nat → String) (img : Img) (cfg : Config)
    (out : Img × Descriptor) (hok : process gen img cfg = Except.ok out)
    (si ai k v h l : Nat) (hsi : si < cfg.states.length)
    (hai : ai < (out.2.states.getD si defaultState).animations.length)
    (hk : k < ((out.2.states.getD si defaultState).animations.getD ai
        defaultAnimation).frames.length)
    (hv : v < cfg.vtiles) (hh : h < cfg.htiles) (hl : l < cfg.palettes.length) :
    (tileAt out.2 cfg si ai k v h l).sliceX = (h + k * cfg.htiles) * cfg.twidth ∧
    (tileAt out.2 cfg si ai k v h l).sliceY =
      (stateOffsetSum (mkCtx img cfg) cfg.states si +
        cfg.vtiles * cfg.palettes.length * ai + cfg.vtiles * l + v) * cfg.theight ∧
    (tileAt out.2 cfg si ai k v h l).x =
      ((h * cfg.twidth : Nat) : Int) +
        (if cfg.htiles ≤ 2 then (0 : Int) else ((cfg.htiles : Int) - 2) * (-4)) ∧
    (tileAt out.2 cfg si ai k v h l).y = v * cfg.theight ∧
    (tileAt out.2 cfg si ai k v h l).paletteIndex = cfg.palettes.getD l 0 ∧
    (tileAt out.2 cfg si ai k v h l).palette = 0 := by
  rw [process_ok_inv gen img cfg out hok] at hai hk ⊢
  obtain ⟨c, n, m, hst⟩ := statesLoop_getD (mkCtx img cfg) gen cfg.states 0 0 1 0 0 si hsi
  simp only [processOk, tileAt] at hai hk ⊢
  rw [hst] at hai hk ⊢
  simp only [] at hai hk ⊢
  rw [animsLoop_length] at hai
  obtain ⟨c2, n2, m2, han⟩ := animsLoop_getD (mkCtx img cfg) gen
    (0 + stateOffsetSum (mkCtx img cfg) cfg.states si) (0 + si)
    (getAnimationCount (cfg.states.getD si "")) 0 (c + 1) n m ai hai
  rw [han] at hk ⊢
  simp only [] at hk ⊢
  obtain ⟨c3, n3, hfr⟩ := framesLoop_getD (mkCtx img cfg) gen
    (0 + stateOffsetSum (mkCtx img cfg) cfg.states si) (0 + si) (0 + ai)
    (mkCtx img cfg).maxFrames 0 (c2 + 1) n2 m2 k hk
  rw [hfr]
  simp only []
  have hct := createFrameTiles_getD (mkCtx img cfg) gen (c3 + 1) (0 + k)
    (0 + stateOffsetSum (mkCtx img cfg) cfg.states si) (0 + ai) n3 (0 + si) v h l hv hh hl
  rw [show (mkCtx img cfg).htiles = cfg.htiles from rfl,
      show (mkCtx img cfg).layerCount = cfg.palettes.length from rfl] at hct
  rw [hct]
  simp [mkTile, mkCtx, hCompensation]

/-- Witness for C4 at the concrete 1x1 red raster: the single retained
tile's geometry and palette fields. -/
theorem C4_witness :
    (tileAt (processOk genA imgRed cfgUnit).2 cfgUnit 0 0 0 0 0 0).sliceX = (0 + 0 * 1) * 1 ∧
    (tileAt (processOk genA imgRed cfgUnit).2 cfgUnit 0 0 0 0 0 0).paletteIndex =
      cfgUnit.palettes.getD 0 0 ∧
    (tileAt (processOk genA imgRed cfgUnit).2 cfgUnit 0 0 0 0 0 0).palette = 0 := by
  have h := C4_amended genA imgRed cfgUnit (processOk genA imgRed cfgUnit) rfl
    0 0 0 0 0 0 (by decide) (by decide) (by decide) (by decide) (by decide) (by decide)
  exact ⟨h.1, h.2.2.2.2.1, h.2.2.2.2.2⟩

/-! Claim C1: numFrames versus retained frames. -/

/-- Claim C1 — code bug.  On an all-green 8x16 raster with the default
configuration the generator succeeds, scans exactly one candidate frame,
finds it empty and retains nothing — yet `numFrames` is 1 because the
counter is incremented before the emptiness test and never rolled back,
while `numTiles` correctly stays 0.  The spec's invariant
"numFrames equals the count of retained frames" is violated. -/
theorem C1_code_bug :
    process genA imgGreen cfgDefault = Except.ok (processOk genA imgGreen cfgDefault) ∧
    (processOk genA imgGreen cfgDefault).2.numFrames = 1 ∧
    retainedFrames (processOk genA imgGreen cfgDefault).2 = 0 ∧
    (processOk genA imgGreen cfgDefault).2.numTiles = 0 ∧
    retainedTiles (processOk genA imgGreen cfgDefault).2 = 0 :=
  ⟨rfl, by decide, by decide, by decide, by decide⟩

/-! Claim C10: name derivation from the `fname` parameter. -/

/-- Claim C10 — confirmed.  With `fname` omitted the descriptor's name is
"unnamed_sprite" (filename "unnamed_sprite.png", symbol
"sprite_unnamed_sprite"); with `fname` supplied and different from "TBD"
the name is the substring after the last backslash with its final four
characters removed, so a last component of four or fewer characters yields
the empty name. -/
theorem C10_name_derivation (gen : Nat → String) (img : Img) (cfg : Config)
    (out : Img × Descriptor) (hok : process gen img cfg = Except.ok out) :
    (cfg.fname = none →
      out.2.name = "unnamed_sprite" ∧ out.2.filename = "unnamed_sprite.png" ∧
      out.2.symbol = "sprite_unnamed_sprite") ∧
    (∀ s, cfg.fname = some s → s ≠ "TBD" →
      out.2.name = String.mk
        (((splitOnChar '\\' s.data).getLastD []).take
          (((splitOnChar '\\' s.data).getLastD []).length - 4)) ∧
      (((splitOnChar '\\' s.data).getLastD []).length ≤ 4 → out.2.name = "")) := by
  rw [process_ok_inv gen img cfg out hok]
  constructor
  · intro hf
    simp only [processOk, createBaseJsonStructure, spriteName, hf, Option.getD]
    refine ⟨rfl, rfl, by decide⟩
  · intro s hs hsne
    simp only [processOk, createBaseJsonStructure, spriteName, hs, Option.getD]
    rw [if_neg hsne]
    refine ⟨rfl, ?_⟩
    intro hlen
    have h0 : ((splitOnChar '\\' s.data).getLastD []).length - 4 = 0 := by omega
    rw [h0, List.take_zero]

/-- Witness for C10: the default configuration yields "unnamed_sprite",
and an `fname` of "abc" yields the empty name. -/
theorem C10_witness :
    (processOk genA imgGreen cfgDefault).2.name = "unnamed_sprite" ∧
    (processOk genA imgRed { cfgUnit with fname := some "abc" }).2.name = "" :=
  ⟨((C10_name_derivation genA imgGreen cfgDefault
      (processOk genA imgGreen cfgDefault) rfl).1 rfl).1,
   ((C10_name_derivation genA imgRed { cfgUnit with fname := some "abc" }
      (processOk genA imgRed { cfgUnit with fname := some "abc" }) rfl).2 "abc" rfl
      (by decide)).2 (by decide)⟩

/-! Claim C3: two runs on identical inputs differ only in generated ids.
The erasure functions blank every generated id; proving the erased
descriptors of two runs equal shows every non-id field agrees between
runs. -/

/-- Blank a tile's generated id. -/
def eraseTileId (t : Tile) : Tile := { t with id := "" }

/-- Blank a frame's generated id and those of its tiles. -/
def eraseFrameIds (f : Frame) : Frame :=
  { f with id := "", tiles := f.tiles.map eraseTileId }

/-- Blank an animation's generated id and those below it. -/
def eraseAnimationIds (a : Animation) : Animation :=
  { a with id := "", frames := a.frames.map eraseFrameIds }

/-- Blank a state's generated id and those below it. -/
def eraseStateIds (s : SpriteState) : SpriteState :=
  { s with id := "", animations := s.animations.map eraseAnimationIds }

/-- Blank the descriptor's generated id and those below it. -/
def eraseDescriptorIds (d : Descriptor) : Descriptor :=
  { d with id := "", states := d.states.map eraseStateIds }

/-- Erase the ids inside a frame-loop result. -/
def eraseFramesOut (fo : FramesOut) : FramesOut :=
  ⟨fo.frames.map eraseFrameIds, fo.ctr, fo.numFrames, fo.numTiles⟩

/-- Erase the ids inside an animation-loop result. -/
def eraseAnimsOut (ao : AnimsOut) : AnimsOut :=
  ⟨ao.anims.map eraseAnimationIds, ao.ctr, ao.numFrames, ao.numTiles⟩

/-- Erase the ids inside a state-loop result. -/
def eraseStatesOut (so : StatesOut) : StatesOut :=
  ⟨so.states.map eraseStateIds, so.ctr, so.numFrames, so.numTiles⟩

/-- A tile differs between uuid supplies only in its id. -/
theorem eraseTileId_mkTile (ctx : GenCtx) (gen1 gen2 : Nat → String)
    (i1 i2 nt si a f tif v h l so : Nat) :
    eraseTileId (mkTile ctx gen1 i1 nt si a f tif v h l so) =
    eraseTileId (mkTile ctx gen2 i2 nt si a f tif v h l so) := rfl

/-- A frame's tile list differs between uuid supplies only in tile ids. -/
theorem createFrameTiles_erase (ctx : GenCtx) (gen1 gen2 : Nat → String)
    (c1 c2 f so a nt si : Nat) :
    (createFrameTiles ctx gen1 c1 f so a nt si).map eraseTileId =
    (createFrameTiles ctx gen2 c2 f so a nt si).map eraseTileId := by
  simp only [createFrameTiles, List.map_flatMap, List.map_map]
  congr 1

/-- The emptiness test only reads slice coordinates, which erasure keeps. -/
theorem frameEmpty_congr (ctx : GenCtx) :
    ∀ (l1 l2 : List Tile), l1.map eraseTileId = l2.map eraseTileId →
      frameEmpty ctx l1 = frameEmpty ctx l2 := by
  intro l1
  induction l1 with
  | nil =>
    intro l2 h
    cases l2 with
    | nil => rfl
    | cons t2 ts2 => simp at h
  | cons t ts ih =>
    intro l2 h
    cases l2 with
    | nil => simp at h
    | cons t2 ts2 =>
      simp only [List.map_cons, List.cons.injEq] at h
      obtain ⟨h1, h2⟩ := h
      have hx := congrArg Tile.sliceX h1
      have hy := congrArg Tile.sliceY h1
      simp only [eraseTileId] at hx hy
      have htail := ih ts2 h2
      simp only [frameEmpty, List.all_cons] at htail ⊢
      rw [hx, hy, htail]

/-- The frame scan differs between uuid supplies only in generated ids;
the counters it returns are identical. -/
theorem framesLoop_erase (ctx : GenCtx) (gen1 gen2 : Nat → String)
    (so si ai : Nat) :
    ∀ (r fi ctr nf nt : Nat),
      eraseFramesOut (framesLoop ctx gen1 so si ai fi r ctr nf nt) =
      eraseFramesOut (framesLoop ctx gen2 so si ai fi r ctr nf nt) := by
  intro r
  induction r with
  | zero => intro fi ctr nf nt; rfl
  | succ r ih =>
    intro fi ctr nf nt
    simp only [framesLoop]
    have hmap := createFrameTiles_erase ctx gen1 gen2 (ctr + 1) (ctr + 1) fi so ai nt si
    have hemp := frameEmpty_congr ctx _ _ hmap
    have hlen : (createFrameTiles ctx gen1 (ctr + 1) fi so ai nt si).length =
        (createFrameTiles ctx gen2 (ctr + 1) fi so ai nt si).length := by
      have := congrArg List.length hmap
      simpa using this
    rw [← hemp, ← hlen]
    by_cases he : frameEmpty ctx (createFrameTiles ctx gen1 (ctr + 1) fi so ai nt si) = true
    · rw [if_pos he, if_pos he]
    · rw [if_neg he, if_neg he]
      have ihEq := ih (fi + 1) (ctr + 1 + tilesPerFrame ctx) (nf + 1)
        (nt + (createFrameTiles ctx gen1 (ctr + 1) fi so ai nt si).length)
      simp only [eraseFramesOut, FramesOut.mk.injEq] at ihEq ⊢
      obtain ⟨e1, e2, e3, e4⟩ := ihEq
      simp [eraseFrameIds, Frame.mk.injEq, hmap, e1, e2, e3, e4]

/-- The animation loop differs between uuid supplies only in generated
ids. -/
theorem animsLoop_erase (ctx : GenCtx) (gen1 gen2 : Nat → String)
    (so si : Nat) :
    ∀ (r ai ctr nf nt : Nat),
      eraseAnimsOut (animsLoop ctx gen1 so si ai r ctr nf nt) =
      eraseAnimsOut (animsLoop ctx gen2 so si ai r ctr nf nt) := by
  intro r
  induction r with
  | zero => intro ai ctr nf nt; rfl
  | succ r ih =>
    intro ai ctr nf nt
    simp only [animsLoop]
    have hfl := framesLoop_erase ctx gen1 gen2 so si ai ctx.maxFrames 0 (ctr + 1) nf nt
    simp only [eraseFramesOut, FramesOut.mk.injEq] at hfl
    obtain ⟨f1, f2, f3, f4⟩ := hfl
    rw [← f2, ← f3, ← f4]
    have ihEq := ih (ai + 1)
      (framesLoop ctx gen1 so si ai 0 ctx.maxFrames (ctr + 1) nf nt).ctr
      (framesLoop ctx gen1 so si ai 0 ctx.maxFrames (ctr + 1) nf nt).numFrames
      (framesLoop ctx gen1 so si ai 0 ctx.maxFrames (ctr + 1) nf nt).numTiles
    simp only [eraseAnimsOut, AnimsOut.mk.injEq] at ihEq ⊢
    obtain ⟨a1, a2, a3, a4⟩ := ihEq
    simp [eraseAnimationIds, Animation.mk.injEq, f1, a1, a2, a3, a4]

/-- The state loop differs between uuid supplies only in generated ids. -/
theorem statesLoop_erase (ctx : GenCtx) (gen1 gen2 : Nat → String) :
    ∀ (specs : List String) (si so ctr nf nt : Nat),
      eraseStatesOut (statesLoop ctx gen1 specs si so ctr nf nt) =
      eraseStatesOut (statesLoop ctx gen2 specs si so ctr nf nt) := by
  intro specs
  induction specs with
  | nil => intro si so ctr nf nt; rfl
  | cons spec rest ih =>
    intro si so ctr nf nt
    simp only [statesLoop]
    have hal := animsLoop_erase ctx gen1 gen2 so si
      (getAnimationCount spec) 0 (ctr + 1) nf nt
    simp only [eraseAnimsOut, AnimsOut.mk.injEq] at hal
    obtain ⟨a1, a2, a3, a4⟩ := hal
    rw [← a2, ← a3, ← a4]
    have ihEq := ih (si + 1) (so + ctx.vtiles * ctx.layerCount * getAnimationCount spec)
      (animsLoop ctx gen1 so si 0 (getAnimationCount spec) (ctr + 1) nf nt).ctr
      (animsLoop ctx gen1 so si 0 (getAnimationCount spec) (ctr + 1) nf nt).numFrames
      (animsLoop ctx gen1 so si 0 (getAnimationCount spec) (ctr + 1) nf nt).numTiles
    simp only [eraseStatesOut, StatesOut.mk.injEq] at ihEq ⊢
    obtain ⟨s1, s2, s3, s4⟩ := ihEq
    simp [eraseStateIds, SpriteState.mk.injEq, a1, s1, s2, s3, s4]

/-- Counterexample for C3 as stated: two runs (two uuid supplies) on the
same valid input produce states whose own generated ids already differ —
not only the descriptor's root id. -/
theorem C3_counterexample :
    process genA imgRed cfgUnit = Except.ok (processOk genA imgRed cfgUnit) ∧
    process genB imgRed cfgUnit = Except.ok (processOk genB imgRed cfgUnit) ∧
    ((processOk genA imgRed cfgUnit).2.states.getD 0 defaultState).id ≠
      ((processOk genB imgRed cfgUnit).2.states.getD 0 defaultState).id :=
  ⟨rfl, rfl, by decide⟩

/-- Claim C3 — corrected.  Two runs of the generator on the same raster and
configuration with no template yield descriptors identical except for all
generated unique ids: the root id and the ids of every state, animation,
frame and tile are freshly drawn each run, while every other field is equal
between the two runs. -/
theorem C3_amended (gen1 gen2 : Nat → String) (img : Img) (cfg : Config) :
    eraseDescriptorIds (processOk gen1 img cfg).2 =
    eraseDescriptorIds (processOk gen2 img cfg).2 := by
  have h := statesLoop_erase (mkCtx img cfg) gen1 gen2 cfg.states 0 0 1 0 0
  simp only [eraseStatesOut, StatesOut.mk.injEq] at h
  obtain ⟨h1, h2, h3, h4⟩ := h
  simp only [processOk, eraseDescriptorIds, createBaseJsonStructure]
  simp [Descriptor.mk.injEq, h1, h3, h4]

/-! Claim C5: the Tile Deduplicator.  The walk over the nested descriptor
is related to a single fold over the document-order tile list, and that
fold is characterized through the content map. -/

/-- The content key of a tile: the pixels of its slice rectangle (the
source hashes exactly these bytes). -/
def tileKey (img : Img) (t : Tile) : List Pixel :=
  tileContent img t.sliceX t.sliceY

/-- First of two options (Python dict hit before fallback). -/
def firstSome (a b : Option FirstOcc) : Option FirstOcc :=
  match a with
  | some x => some x
  | none => b

/-- The first occurrence of content `c` in a tile list, with its identity
and slice. -/
def firstData (img : Img) (c : List Pixel) : List Tile → Option FirstOcc
  | [] => none
  | t :: ts =>
    if tileContent img t.sliceX t.sliceY = c then some ⟨t.id, t.sliceX, t.sliceY⟩
    else firstData img c ts

theorem firstSome_none_right (a : Option FirstOcc) : firstSome a none = a := by
  cases a <;> rfl

theorem firstSome_assoc (a b c : Option FirstOcc) :
    firstSome (firstSome a b) c = firstSome a (firstSome b c) := by
  cases a <;> rfl

theorem lookupHash_append (m : List (List Pixel × FirstOcc)) (k : List Pixel)
    (v : FirstOcc) (c : List Pixel) :
    lookupHash (m ++ [(k, v)]) c =
      firstSome (lookupHash m c) (if k = c then some v else none) := by
  induction m with
  | nil => simp [lookupHash, firstSome]
  | cons p rest ih =>
    by_cases hpc : p.1 = c
    · simp [lookupHash, hpc, firstSome]
    · simp only [List.cons_append, lookupHash, if_neg hpc]
      exact ih

/-- One visit's effect on the content map, seen through lookup. -/
theorem dedupTile_lookup (img : Img) (st : DedupSt) (t : Tile) (c : List Pixel) :
    lookupHash (dedupTile img st t).2.tileHashes c =
      firstSome (lookupHash st.tileHashes c)
        (if tileContent img t.sliceX t.sliceY = c
         then some ⟨t.id, t.sliceX, t.sliceY⟩ else none) := by
  simp only [dedupTile]
  cases hl : lookupHash st.tileHashes (tileContent img t.sliceX t.sliceY) with
  | some fo =>
    simp only []
    by_cases hc : tileContent img t.sliceX t.sliceY = c
    · rw [← hc, hl]
      rfl
    · rw [if_neg hc, firstSome_none_right]
  | none =>
    simp only [lookupHash_append]

/-- Visiting one tile leaves the earlier counters' difference intact. -/
theorem dedupTiles_append (img : Img) :
    ∀ (xs ys : List Tile) (st : DedupSt),
      dedupTiles img st (xs ++ ys) =
        ((dedupTiles img st xs).1 ++ (dedupTiles img (dedupTiles img st xs).2 ys).1,
         (dedupTiles img (dedupTiles img st xs).2 ys).2) := by
  intro xs
  induction xs with
  | nil => intro ys st; simp [dedupTiles]
  | cons t rest ih =>
    intro ys st
    simp only [List.cons_append, dedupTiles, List.append_eq]
    rw [ih]

/-- The pass never adds or removes tiles. -/
theorem dedupTiles_length (img : Img) :
    ∀ (ts : List Tile) (st : DedupSt),
      (dedupTiles img st ts).1.length = ts.length := by
  intro ts
  induction ts with
  | nil => intro st; rfl
  | cons t rest ih =>
    intro st
    simp only [dedupTiles, List.length_cons]
    rw [ih]

/-- Lookup in the map produced by a whole walk: the incoming map's entry
wins, else the first occurrence inside the walked list. -/
theorem dedupTiles_lookup (img : Img) :
    ∀ (ts : List Tile) (st : DedupSt) (c : List Pixel),
      lookupHash (dedupTiles img st ts).2.tileHashes c =
        firstSome (lookupHash st.tileHashes c) (firstData img c ts) := by
  intro ts
  induction ts with
  | nil => intro st c; simp [dedupTiles, firstData, firstSome_none_right]
  | cons t rest ih =>
    intro st c
    simp only [dedupTiles]
    rw [ih, dedupTile_lookup, firstSome_assoc]
    congr 1
    simp only [firstData]
    by_cases hc : tileContent img t.sliceX t.sliceY = c
    · rw [if_pos hc, if_pos hc]
      rfl
    · rw [if_neg hc, if_neg hc]
      rfl

/-- Counting invariant of the walk: every visited tile is either a new map
entry or a counted duplicate. -/
theorem dedupTiles_stats (img : Img) :
    ∀ (ts : List Tile) (st : DedupSt),
      (dedupTiles img st ts).2.totalTiles = st.totalTiles + ts.length ∧
      (dedupTiles img st ts).2.tileHashes.length + (dedupTiles img st ts).2.duplicateTiles =
        st.tileHashes.length + st.duplicateTiles + ts.length := by
  intro ts
  induction ts with
  | nil => intro st; exact ⟨rfl, rfl⟩
  | cons t rest ih =>
    intro st
    simp only [dedupTiles, List.length_cons]
    obtain ⟨ih1, ih2⟩ := ih (dedupTile img st t).2
    refine ⟨?_, ?_⟩
    · rw [ih1]
      simp only [dedupTile]
      cases lookupHash ({ st with totalTiles := st.totalTiles + 1 } : DedupSt).tileHashes
          (tileContent img t.sliceX t.sliceY) <;> simp <;> omega
    · rw [ih2]
      simp only [dedupTile]
      cases lookupHash ({ st with totalTiles := st.totalTiles + 1 } : DedupSt).tileHashes
          (tileContent img t.sliceX t.sliceY) <;> simp [List.length_append] <;> omega

/-- The `i`-th output tile of the walk: unchanged if its content has no
earlier occurrence (in the incoming map or the preceding tiles), else
rewritten to reference that first occurrence. -/
theorem dedupTiles_getD (img : Img) :
    ∀ (ts : List Tile) (st : DedupSt) (i : Nat), i < ts.length →
      (dedupTiles img st ts).1.getD i defaultTile =
        (match firstSome (lookupHash st.tileHashes (tileKey img (ts.getD i defaultTile)))
            (firstData img (tileKey img (ts.getD i defaultTile)) (ts.take i)) with
         | some fo => replaceTileWithReference (ts.getD i defaultTile) fo
         | none => ts.getD i defaultTile) := by
  intro ts
  induction ts with
  | nil => intro st i hi; simp at hi
  | cons t rest ih =>
    intro st i hi
    match i with
    | 0 =>
      simp only [dedupTiles, List.getD_cons_zero, List.take_zero, firstData,
        firstSome_none_right, tileKey]
      simp only [dedupTile]
      cases hl : lookupHash st.tileHashes (tileContent img t.sliceX t.sliceY) with
      | some fo => rfl
      | none => rfl
    | i' + 1 =>
      have hi' : i' < rest.length := by simpa using hi
      simp only [dedupTiles, List.getD_cons_succ, List.take_succ_cons]
      rw [ih (dedupTile img st t).2 i' hi']
      have hstep : ∀ c pre, firstSome (lookupHash (dedupTile img st t).2.tileHashes c)
          (firstData img c pre) =
          firstSome (lookupHash st.tileHashes c) (firstData img c (t :: pre)) := by
        intro c pre
        rw [dedupTile_lookup, firstSome_assoc]
        congr 1
        simp only [firstData]
        by_cases hc : tileContent img t.sliceX t.sliceY = c
        · rw [if_pos hc, if_pos hc]
          rfl
        · rw [if_neg hc, if_neg hc]
          rfl
      rw [hstep]

/-- No occurrence of content `c` among the first `i` tiles. -/
theorem firstData_take_none (img : Img) (c : List Pixel) :
    ∀ (ts : List Tile) (i : Nat), i ≤ ts.length →
      (∀ m, m < i → tileKey img (ts.getD m defaultTile) ≠ c) →
      firstData img c (ts.take i) = none := by
  intro ts
  induction ts with
  | nil => intro i hi hne; simp at hi; simp [hi, firstData]
  | cons t rest ih =>
    intro i hi hne
    match i with
    | 0 => rfl
    | i' + 1 =>
      have h0 := hne 0 (by omega)
      simp only [List.getD_cons_zero, tileKey] at h0
      simp only [List.take_succ_cons, firstData, if_neg h0]
      refine ih i' (by simpa using hi) ?_
      intro m hm
      have := hne (m + 1) (by omega)
      simpa using this

/-- The first occurrence of content `c`, sitting at index `i < j`, is what
`firstData` finds among the first `j` tiles. -/
theorem firstData_take_some (img : Img) (c : List Pixel) :
    ∀ (ts : List Tile) (i j : Nat), i < j → j ≤ ts.length →
      tileKey img (ts.getD i defaultTile) = c →
      (∀ m, m < i → tileKey img (ts.getD m defaultTile) ≠ c) →
      firstData img c (ts.take j) =
        some ⟨(ts.getD i defaultTile).id, (ts.getD i defaultTile).sliceX,
          (ts.getD i defaultTile).sliceY⟩ := by
  intro ts
  induction ts with
  | nil =>
    intro i j hij hj hc hne
    simp at hj
    omega
  | cons t rest ih =>
    intro i j hij hj hc hne
    match j with
    | 0 => omega
    | j' + 1 =>
      simp only [List.take_succ_cons, firstData]
      match i with
      | 0 =>
        simp only [List.getD_cons_zero, tileKey] at hc
        rw [if_pos hc]
        simp [List.getD_cons_zero]
      | i' + 1 =>
        have h0 := hne 0 (by omega)
        simp only [List.getD_cons_zero, tileKey] at h0
        rw [if_neg h0]
        simp only [List.getD_cons_succ]
        refine ih i' j' (by omega) (by simpa using hj) (by simpa using hc) ?_
        intro m hm
        have := hne (m + 1) (by omega)
        simpa using this

/-- Walking the frames of one animation equals walking their concatenated
tiles. -/
theorem dedupFrames_flat (img : Img) :
    ∀ (fs : List Frame) (st : DedupSt),
      ((dedupFrames img st fs).1.flatMap fun f => f.tiles) =
        (dedupTiles img st (fs.flatMap fun f => f.tiles)).1 ∧
      (dedupFrames img st fs).2 = (dedupTiles img st (fs.flatMap fun f => f.tiles)).2 := by
  intro fs
  induction fs with
  | nil => intro st; exact ⟨rfl, rfl⟩
  | cons f rest ih =>
    intro st
    simp only [dedupFrames, List.flatMap_cons]
    rw [dedupTiles_append]
    obtain ⟨ih1, ih2⟩ := ih (dedupTiles img st f.tiles).2
    constructor
    · simp only [List.flatMap_cons]
      rw [ih1]
    · exact ih2

/-- Walking the animations of one state equals walking their concatenated
tiles. -/
theorem dedupAnims_flat (img : Img) :
    ∀ (as_ : List Animation) (st : DedupSt),
      ((dedupAnims img st as_).1.flatMap fun a => a.frames.flatMap fun f => f.tiles) =
        (dedupTiles img st (as_.flatMap fun a => a.frames.flatMap fun f => f.tiles)).1 ∧
      (dedupAnims img st as_).2 =
        (dedupTiles img st (as_.flatMap fun a => a.frames.flatMap fun f => f.tiles)).2 := by
  intro as_
  induction as_ with
  | nil => intro st; exact ⟨rfl, rfl⟩
  | cons a rest ih =>
    intro st
    simp only [dedupAnims, List.flatMap_cons]
    rw [dedupTiles_append]
    obtain ⟨hf1, hf2⟩ := dedupFrames_flat img a.frames st
    obtain ⟨ih1, ih2⟩ := ih (dedupFrames img st a.frames).2
    rw [← hf2]
    constructor
    · simp only [List.flatMap_cons]
      rw [hf1, ih1, hf2]
    · exact ih2

/-- Walking all states equals walking the document-order tile list. -/
theorem dedupStates_flat (img : Img) :
    ∀ (ss : List SpriteState) (st : DedupSt),
      ((dedupStates img st ss).1.flatMap fun s =>
          s.animations.flatMap fun a => a.frames.flatMap fun f => f.tiles) =
        (dedupTiles img st (ss.flatMap fun s =>
          s.animations.flatMap fun a => a.frames.flatMap fun f => f.tiles)).1 ∧
      (dedupStates img st ss).2 =
        (dedupTiles img st (ss.flatMap fun s =>
          s.animations.flatMap fun a => a.frames.flatMap fun f => f.tiles)).2 := by
  intro ss
  induction ss with
  | nil => intro st; exact ⟨rfl, rfl⟩
  | cons s rest ih =>
    intro st
    simp only [dedupStates, List.flatMap_cons]
    rw [dedupTiles_append]
    obtain ⟨ha1, ha2⟩ := dedupAnims_flat img s.animations st
    obtain ⟨ih1, ih2⟩ := ih (dedupAnims img st s.animations).2
    rw [← ha2]
    constructor
    · simp only [List.flatMap_cons]
      rw [ha1, ih1, ha2]
    · exact ih2

/-- The deduplication pass seen on the flat document-order tile list,
together with its statistics. -/
theorem dedupProcess_flat (img : Img) (d : Descriptor) :
    tilesInOrder (dedupProcess img d).1 =
      (dedupTiles img ⟨[], 0, 0, []⟩ (tilesInOrder d)).1 ∧
    (dedupProcess img d).2.total_tiles =
      (dedupTiles img ⟨[], 0, 0, []⟩ (tilesInOrder d)).2.totalTiles ∧
    (dedupProcess img d).2.unique_tiles =
      (dedupTiles img ⟨[], 0, 0, []⟩ (tilesInOrder d)).2.tileHashes.length ∧
    (dedupProcess img d).2.duplicate_tiles =
      (dedupTiles img ⟨[], 0, 0, []⟩ (tilesInOrder d)).2.duplicateTiles := by
  obtain ⟨h1, h2⟩ := dedupStates_flat img d.states ⟨[], 0, 0, []⟩
  simp only [dedupProcess, tilesInOrder]
  refine ⟨h1, ?_, ?_, ?_⟩ <;> rw [h2]

/-- Claim C5 — confirmed.  After the deduplication pass, any two tiles with
byte-identical slice content both carry the id, sliceX and sliceY of the
content's first occurrence in document order; a first occurrence itself is
left unmodified; a later duplicate keeps its original identity and slice
under the shadow fields and is marked as a reference; the pass changes no
tile count; and the emitted statistics satisfy
unique_tiles + duplicate_tiles = total_tiles. -/
theorem C5_deduplication (img : Img) (d : Descriptor) (i j : Nat)
    (hij : i ≤ j) (hj : j < (tilesInOrder d).length)
    (hcontent : tileKey img ((tilesInOrder d).getD i defaultTile) =
      tileKey img ((tilesInOrder d).getD j defaultTile))
    (hfirst : ∀ m, m < i →
      tileKey img ((tilesInOrder d).getD m defaultTile) ≠
        tileKey img ((tilesInOrder d).getD i defaultTile)) :
    (tilesInOrder (dedupProcess img d).1).length = (tilesInOrder d).length ∧
    (dedupProcess img d).2.unique_tiles + (dedupProcess img d).2.duplicate_tiles =
      (dedupProcess img d).2.total_tiles ∧
    (tilesInOrder (dedupProcess img d).1).getD i defaultTile =
      (tilesInOrder d).getD i defaultTile ∧
    ((tilesInOrder (dedupProcess img d).1).getD j defaultTile).id =
      ((tilesInOrder d).getD i defaultTile).id ∧
    ((tilesInOrder (dedupProcess img d).1).getD j defaultTile).sliceX =
      ((tilesInOrder d).getD i defaultTile).sliceX ∧
    ((tilesInOrder (dedupProcess img d).1).getD j defaultTile).sliceY =
      ((tilesInOrder d).getD i defaultTile).sliceY ∧
    (i < j →
      ((tilesInOrder (dedupProcess img d).1).getD j defaultTile).originalId =
        some (((tilesInOrder d).getD j defaultTile).id) ∧
      ((tilesInOrder (dedupProcess img d).1).getD j defaultTile).originalSliceX =
        some (((tilesInOrder d).getD j defaultTile).sliceX) ∧
      ((tilesInOrder (dedupProcess img d).1).getD j defaultTile).originalSliceY =
        some (((tilesInOrder d).getD j defaultTile).sliceY) ∧
      ((tilesInOrder (dedupProcess img d).1).getD j defaultTile).deduplicated = true ∧
      ((tilesInOrder (dedupProcess img d).1).getD j defaultTile).references =
        some (((tilesInOrder d).getD i defaultTile).id)) := by
  obtain ⟨hflat, htot, huni, hdup⟩ := dedupProcess_flat img d
  have hi : i < (tilesInOrder d).length := Nat.lt_of_le_of_lt hij hj
  have houti : (tilesInOrder (dedupProcess img d).1).getD i defaultTile =
      (tilesInOrder d).getD i defaultTile := by
    rw [hflat, dedupTiles_getD img (tilesInOrder d) ⟨[], 0, 0, []⟩ i hi]
    rw [firstData_take_none img _ (tilesInOrder d) i (Nat.le_of_lt hi) hfirst]
    rfl
  refine ⟨?_, ?_, houti, ?_⟩
  · rw [hflat, dedupTiles_length]
  · obtain ⟨hs1, hs2⟩ := dedupTiles_stats img (tilesInOrder d) ⟨[], 0, 0, []⟩
    rw [huni, hdup, htot, hs1, hs2]
    simp
  · rcases Nat.lt_or_ge i j with hlt | hge
    · have houtj : (tilesInOrder (dedupProcess img d).1).getD j defaultTile =
          replaceTileWithReference ((tilesInOrder d).getD j defaultTile)
            ⟨((tilesInOrder d).getD i defaultTile).id,
             ((tilesInOrder d).getD i defaultTile).sliceX,
             ((tilesInOrder d).getD i defaultTile).sliceY⟩ := by
        rw [hflat, dedupTiles_getD img (tilesInOrder d) ⟨[], 0, 0, []⟩ j hj]
        rw [firstData_take_some img _ (tilesInOrder d) i j hlt (Nat.le_of_lt hj)
          hcontent (fun m hm => by rw [← hcontent]; exact hfirst m hm)]
        rfl
      rw [houtj]
      simp [replaceTileWithReference]
    · have hji : i = j := Nat.le_antisymm hij hge
      subst hji
      rw [houti]
      exact ⟨rfl, rfl, rfl, fun hcon => absurd hcon (by omega)⟩

/-- A 4x4 raster of one solid non-sentinel color. -/
def imgSolid : Img := ⟨4, 4, fun _ _ => (9, 9, 9)⟩

/-- A descriptor with one state, one animation, one frame and two tiles
whose slice rectangles coincide (hence byte-identical content). -/
def descDup : Descriptor :=
  { resourceType := "sprite", id := "d", name := "n", symbol := "s", numFrames := 1,
    filename := "n.png", checksum := "TBD", width := 4, height := 4,
    states := [⟨"s1", "state_0", "fixed", false,
      [⟨"a1", [⟨"f1", [{ defaultTile with id := "t1" },
                       { defaultTile with id := "t2" }]⟩]⟩]⟩],
    numTiles := 2, canvasWidth := 8, canvasHeight := 16, boundsX := 0, boundsY := 0,
    boundsWidth := 8, boundsHeight := 16, animSpeed := 15 }

/-- Witness for C5 on the concrete duplicate pair: counts preserved, the
statistics identity, and the duplicate rewritten to the first tile's id. -/
theorem C5_witness :
    (tilesInOrder (dedupProcess imgSolid descDup).1).length =
      (tilesInOrder descDup).length ∧
    (dedupProcess imgSolid descDup).2.unique_tiles +
      (dedupProcess imgSolid descDup).2.duplicate_tiles =
      (dedupProcess imgSolid descDup).2.total_tiles ∧
    ((tilesInOrder (dedupProcess imgSolid descDup).1).getD 1 defaultTile).id =
      ((tilesInOrder descDup).getD 0 defaultTile).id :=
  have h := C5_deduplication imgSolid descDup 0 1 (by decide) (by decide) (by decide)
    (fun m hm => absurd hm (Nat.not_lt_zero m))
  ⟨h.1, h.2.1, h.2.2.2.1⟩

end LitGB
